import Mathlib

/-!
Shallow embedding of the versioned-output and content-addressing core of the
`turbo` repository: `crates/turbopack-dev-server/src/html.rs` (dev-server HTML
entry, version fingerprint, update evaluator) and
`crates/turbopack-static/src/lib.rs` (content-addressed static assets).

Strings are modelled as Lean `String`; Rust's byte-level `str::ends_with` is
modelled as a suffix test on the character sequence, which agrees with the
byte-level test for the ASCII suffixes used by the code. The hashing crate
`turbopack-hash` and the path/file-content abstractions of `turbo-tasks-fs`
are not part of the given sources; they are modelled from the spec, as noted
on each such definition.
-/

/-- Model of Rust `str::ends_with`: case-sensitive suffix test on the whole
character sequence of the string. -/
def strEndsWith (s post : String) : Bool :=
  post.data.isSuffixOf s.data

/-- Modelled from the spec: the fast non-cryptographic 64-bit streaming hash
(`Xxh3Hash64Hasher::new` of crate `turbopack-hash`, whose source is not among
the given files). Only its interface shape matters here: a deterministic
64-bit state initialized to a fixed value. -/
def Xxh3Hash64Hasher.new : Nat := 0

/-- Modelled from the spec: feeding bytes into the streaming 64-bit hash
state (`Xxh3Hash64Hasher::write`). Deterministic, order-sensitive, and
carries the state across calls, so consecutive writes hash the concatenation
of their byte sequences. -/
def Xxh3Hash64Hasher.write (state : Nat) (bytes : List Nat) : Nat :=
  bytes.foldl (fun s b => (s * 1099511628211 + b) % 2 ^ 64) state

/-- Modelled from the spec: extracting the 64-bit digest from the hash state
(`Xxh3Hash64Hasher::finish`). The digest always fits in 64 bits. -/
def Xxh3Hash64Hasher.finish (state : Nat) : Nat :=
  state % 2 ^ 64

/-- Modelled from the spec: hexadecimal encoding of a 64-bit digest
(`encode_hex` of crate `turbopack-hash`): sixteen hex digits, most
significant first. -/
def encode_hex (hash : Nat) : String :=
  String.mk ((List.range 16).reverse.map fun i => Nat.digitChar (hash / 16 ^ i % 16))

/-- The byte view of a string fed to the hashers (`as_bytes`), modelled as
the sequence of character code points. -/
def strBytes (s : String) : List Nat :=
  s.data.map Char.toNat

/-- From `html.rs`: the state of `DevHtmlAssetContent` — the ordered
`(relative_path, chunk_id)` pairs and the runtime script path, as built by
`DevHtmlAssetVc::html_content`. -/
structure DevHtmlAssetContent where
  chunk_paths : List (String × String)
  html_runtime_path : String

/-- From `html.rs` line 166: the script tag emitted for a JS chunk (and for
the runtime script path). -/
def scriptTag (relative_path : String) : String :=
  "<script src=\"" ++ relative_path ++ "\"></script>"

/-- From `html.rs` lines 168-171: the stylesheet link tag emitted for a CSS
chunk. -/
def stylesheetTag (chunk_id relative_path : String) : String :=
  "<link data-turbopack-chunk-id=\"" ++ chunk_id ++ "\" rel=\"stylesheet\" href=\"" ++ relative_path ++ "\">"

/-- From `html.rs` lines 177-182: the HTML skeleton composed from the joined
stylesheet tags and the joined script tags. -/
def htmlTemplate (stylesheets scripts : List String) : String :=
  "<!DOCTYPE html>\n<html>\n<head>\n" ++ String.intercalate "\n" stylesheets
    ++ "\n</head>\n<body>\n<div id=root></div>\n" ++ String.intercalate "\n" scripts
    ++ "\n</body>\n</html>"

/-- From `html.rs` lines 164-175: the loop over `chunk_paths` classifying
each entry by extension, collecting `(scripts, stylesheets)` in input order
and failing on the first entry that is neither `.js` nor `.css`. -/
def collectTags : List (String × String) → Except String (List String × List String)
  | [] => Except.ok ([], [])
  | (relative_path, chunk_id) :: rest =>
    if strEndsWith relative_path ".js" then
      match collectTags rest with
      | Except.error e => Except.error e
      | Except.ok (scripts, stylesheets) =>
        Except.ok (scriptTag relative_path :: scripts, stylesheets)
    else if strEndsWith relative_path ".css" then
      match collectTags rest with
      | Except.error e => Except.error e
      | Except.ok (scripts, stylesheets) =>
        Except.ok (scripts, stylesheetTag chunk_id relative_path :: stylesheets)
    else
      Except.error ("chunk with unknown asset type: " ++ relative_path)

/-- From `html.rs` lines 152-185, `DevHtmlAssetContentVc::content`: the
runtime script tag is pushed first, then the chunk tags in order; any
unknown asset type fails the whole pass. -/
def DevHtmlAssetContent.content (c : DevHtmlAssetContent) : Except String String :=
  match collectTags c.chunk_paths with
  | Except.error e => Except.error e
  | Except.ok (scripts, stylesheets) =>
    Except.ok (htmlTemplate stylesheets (scriptTag c.html_runtime_path :: scripts))

/-- From `html.rs` lines 232-235: the version value holds only the shared
chunk-path list. -/
structure DevHtmlAssetVersion where
  chunk_paths : List (String × String)

/-- From `html.rs` lines 187-195, `DevHtmlAssetContentVc::version`: the
version is built from the chunk paths alone; the runtime path is dropped. -/
def DevHtmlAssetContent.version (c : DevHtmlAssetContent) : DevHtmlAssetVersion :=
  { chunk_paths := c.chunk_paths }

/-- From `html.rs` lines 239-249, `DevHtmlAssetVersion::id`: stream every
entry's relative-path bytes then chunk-id bytes into the fast hasher, finish,
and hex-encode. -/
def DevHtmlAssetVersion.id (v : DevHtmlAssetVersion) : String :=
  encode_hex (Xxh3Hash64Hasher.finish
    (v.chunk_paths.foldl
      (fun state e =>
        Xxh3Hash64Hasher.write (Xxh3Hash64Hasher.write state (strBytes e.1)) (strBytes e.2))
      Xxh3Hash64Hasher.new))

/-- The 64-bit fingerprint digest before hex encoding (the body of
`DevHtmlAssetVersion::id` up to `hasher.finish()`). -/
def fingerprintHash (chunk_paths : List (String × String)) : Nat :=
  Xxh3Hash64Hasher.finish
    (chunk_paths.foldl
      (fun state e =>
        Xxh3Hash64Hasher.write (Xxh3Hash64Hasher.write state (strBytes e.1)) (strBytes e.2))
      Xxh3Hash64Hasher.new)

/-- The argument `update` receives: either a version produced by this content
type (`DevHtmlAssetVersionVc`) or a version of some other content type, which
`resolve_from` fails to resolve. -/
inductive VersionValue where
  | devHtml (version : DevHtmlAssetVersion)
  | other

/-- The observable outcome of `update` in `html.rs` lines 210-229:
`Ok(Update::None)`, the `Err(anyhow!(...))` carrying both versions'
chunk-path sequences for diagnostics, or the panic raised by
`.expect(...)` when `resolve_from` yields no `DevHtmlAssetVersionVc`. -/
inductive UpdateOutcome where
  | noChange
  | unsupported (fromPaths toPaths : List (String × String))
  | panic (msg : String)
deriving DecidableEq

/-- From `html.rs` lines 210-229, `VersionedContent::update`: resolve the
supplied previous version (panicking via `expect` when it is not a
`DevHtmlAssetVersionVc`), then compare the two chunk-path sequences: equal
sequences give `Update::None`, different sequences give the unsupported
error carrying both versions. -/
def DevHtmlAssetContent.update (c : DevHtmlAssetContent) (from_version : VersionValue) :
    UpdateOutcome :=
  match from_version with
  | VersionValue.other => UpdateOutcome.panic "version must be an `DevHtmlAssetVersionVc`"
  | VersionValue.devHtml fromV =>
    if c.version.chunk_paths = fromV.chunk_paths then UpdateOutcome.noChange
    else UpdateOutcome.unsupported fromV.chunk_paths c.version.chunk_paths

/-- Modelled from the spec: the byte-content abstraction of `turbo-tasks-fs`
(not among the given files): either materialized bytes or unavailable. -/
inductive FileContent where
  | Content (bytes : List Nat)
  | NotFound
deriving DecidableEq

/-- Modelled from the spec: the cryptographic-strength content hash
(`hash_md4` of crate `turbopack-hash`, not among the given files), producing
a fixed-size digest of sixteen bytes; only determinism and the fixed digest
size matter here. -/
def hash_md4 (bytes : List Nat) : List Nat :=
  (List.range 16).map fun i =>
    bytes.foldl (fun s b => (s * 16777619 + (b + 1)) % 2 ^ 128) 1 / 256 ^ i % 256

/-- Modelled from the spec: base-16 encoding of a digest (`encode_base16` of
crate `turbopack-hash`): two hex digits per byte. -/
def encode_base16 (digest : List Nat) : String :=
  String.mk (digest.flatMap fun b => [Nat.digitChar (b / 16 % 16), Nat.digitChar (b % 16)])

/-- Splitting a character sequence on a separator character, keeping empty
segments, used to model the path abstraction. -/
def splitOnChar (sep : Char) : List Char → List (List Char)
  | [] => [[]]
  | c :: rest =>
    match splitOnChar sep rest with
    | [] => [[]]
    | seg :: segs => if c = sep then [] :: seg :: segs else (c :: seg) :: segs

/-- Modelled from the spec: the path abstraction's file-extension extractor
(`FileSystemPath::extension` of `turbo-tasks-fs`, not among the given files):
the segment after the last dot of the last path component, if there is one. -/
def extension (path : String) : Option String :=
  match splitOnChar '.' ((splitOnChar '/' path.data).getLastD []) with
  | [] => none
  | [_] => none
  | segs => segs.getLast?.map String.mk

/-- From `lib.rs` lines 134-148, `StaticAsset::path`: error unless the source
content is materialized bytes; otherwise the base-16 content hash, suffixed
with the source path's extension when it has one. -/
def StaticAsset.path (source_path : String) (source_content : FileContent) :
    Except String String :=
  match source_content with
  | FileContent.Content file =>
    match extension source_path with
    | some e => Except.ok (encode_base16 (hash_md4 file) ++ "." ++ e)
    | none => Except.ok (encode_base16 (hash_md4 file))
  | FileContent.NotFound => Except.error "StaticAsset::path: unsupported file content"

/-- Modelled from the spec: one escaped character of the string-literal
serialization used by `stringify_str` (crate `turbopack-ecmascript`, not
among the given files): quotes and backslashes are backslash-escaped. -/
def escapeChar (c : Char) : List Char :=
  if c = '"' then ['\\', '"'] else if c = '\\' then ['\\', '\\'] else [c]

/-- Modelled from the spec: `stringify_str` — the string wrapped in double
quotes with its quotes and backslashes escaped, so the emitted code denotes
exactly the original string. -/
def stringify_str (s : String) : String :=
  String.mk ('"' :: (s.data.flatMap escapeChar ++ ['"']))

/-- From `lib.rs` lines 183-199, `EcmascriptChunkItem::content` for
`ModuleChunkItem`: resolve the static asset path (propagating its error) and
emit `__turbopack_export_value__(...)` applied to the stringified
slash-prefixed output path. -/
def ModuleChunkItem.content (source_path : String) (source_content : FileContent) :
    Except String String :=
  match StaticAsset.path source_path source_content with
  | Except.error e => Except.error e
  | Except.ok output_path =>
    Except.ok ("__turbopack_export_value__(" ++ stringify_str ("/" ++ output_path) ++ ");")

/-- Helper for reading emitted code back: consume an exact leading character
sequence, returning the remainder. -/
def dropExact : List Char → List Char → Option (List Char)
  | [], l => some l
  | _ :: _, [] => none
  | a :: as, b :: bs => if a = b then dropExact as bs else none

/-- Helper for reading emitted code back: remove an exact trailing character
sequence, returning what precedes it. -/
def removeSuffix (post l : List Char) : Option (List Char) :=
  (dropExact post.reverse l.reverse).map List.reverse

/-- Helper for reading emitted code back: undo `escapeChar` across a
sequence; fails on a lone backslash or an unescaped quote, so a well-formed
literal body denotes exactly one string. -/
def unescapeChars : List Char → Option (List Char)
  | [] => some []
  | c :: rest =>
    if c = '\\' then
      match rest with
      | [] => none
      | d :: rest2 => (unescapeChars rest2).map fun l => d :: l
    else if c = '"' then none
    else (unescapeChars rest).map fun l => c :: l

/-- The string denoted by a quote-delimited escaped literal, if it is one. -/
def decodeStringLit (lit : List Char) : Option (List Char) :=
  (dropExact ['"'] lit).bind fun inner =>
    (removeSuffix ['"'] inner).bind fun body => unescapeChars body

/-- The single value exported by an emitted chunk-item module: the string
denoted by the literal inside `__turbopack_export_value__(...);`, when the
code has exactly that shape. -/
def exportedValue (code : String) : Option String :=
  (dropExact "__turbopack_export_value__(".data code.data).bind fun afterCall =>
    (removeSuffix ");".data afterCall).bind fun lit =>
      (decodeStringLit lit).bind fun s => some (String.mk s)

/-- Consecutive writes hash the concatenation of their byte sequences. -/
theorem write_append (s : Nat) (a b : List Nat) :
    Xxh3Hash64Hasher.write s (a ++ b) = Xxh3Hash64Hasher.write (Xxh3Hash64Hasher.write s a) b := by
  simp [Xxh3Hash64Hasher.write, List.foldl_append]

/-- Streaming every entry's path bytes then id bytes equals one write of the
separator-free concatenation of all those byte sequences. -/
theorem foldl_write_eq_oneshot (cp : List (String × String)) (s : Nat) :
    cp.foldl
        (fun state e =>
          Xxh3Hash64Hasher.write (Xxh3Hash64Hasher.write state (strBytes e.1)) (strBytes e.2)) s
      = Xxh3Hash64Hasher.write s ((cp.map fun e => strBytes e.1 ++ strBytes e.2).flatten) := by
  induction cp generalizing s with
  | nil => simp [Xxh3Hash64Hasher.write]
  | cons e rest ih => simp [ih, write_append]

/-- The fingerprint digest is a 64-bit value. -/
theorem fingerprintHash_lt (cp : List (String × String)) : fingerprintHash cp < 2 ^ 64 := by
  have h : (0 : Nat) < 2 ^ 64 := by norm_num
  simpa [fingerprintHash, Xxh3Hash64Hasher.finish] using Nat.mod_lt _ h

/-- The fingerprint is the hex encoding of the fingerprint digest. -/
theorem id_eq_encode_fingerprintHash (v : DevHtmlAssetVersion) :
    v.id = encode_hex (fingerprintHash v.chunk_paths) := rfl

/-- A family of pairwise distinct chunk-path sequences. -/
def seqOfNat (n : Nat) : List (String × String) :=
  [(String.mk (List.replicate n 'a'), "")]

/-- Distinct indices give distinct sequences. -/
theorem seqOfNat_injective : Function.Injective seqOfNat := by
  intro x y h
  simpa [seqOfNat] using congrArg (fun l => (l.headD ("", "")).1.data.length) h

/-- Infinitely many sequences share only finitely many 64-bit digests, so two
distinct sequences carry the same fingerprint. -/
theorem fingerprint_collision :
    ∃ a b : List (String × String), a ≠ b ∧
      DevHtmlAssetVersion.id ⟨a⟩ = DevHtmlAssetVersion.id ⟨b⟩ := by
  obtain ⟨x, y, hxy, hfx⟩ :=
    Finite.exists_ne_map_eq_of_infinite
      (fun n : Nat => (⟨fingerprintHash (seqOfNat n), fingerprintHash_lt _⟩ : Fin (2 ^ 64)))
  refine ⟨seqOfNat x, seqOfNat y, fun h => hxy (seqOfNat_injective h), ?_⟩
  have h := congrArg Fin.val hfx
  simpa [id_eq_encode_fingerprintHash] using congrArg encode_hex h

/-- C1: the claim as stated is false on the code: `update` compares the two
chunk-entry sequences, not the fingerprint strings, and a 64-bit fingerprint
must identify two distinct sequences, on which `update` is not `NoChange`
although the fingerprints are equal. -/
theorem c1_counterexample :
    ¬ ∀ (a b : List (String × String)) (rt : String),
      ((DevHtmlAssetContent.mk b rt).update (VersionValue.devHtml ⟨a⟩) = UpdateOutcome.noChange
        ↔ DevHtmlAssetVersion.id ⟨a⟩ = DevHtmlAssetVersion.id ⟨b⟩) := by
  intro hclaim
  obtain ⟨a, b, hne, hid⟩ := fingerprint_collision
  have h := (hclaim a b "").mpr hid
  simp [DevHtmlAssetContent.update, DevHtmlAssetContent.version, Ne.symm hne] at h

/-- C1 (amended): `update` returns `NoChange` exactly when the two underlying
chunk-entry sequences are equal, and otherwise the unsupported failure
carrying both sequences; the decision is made on the sequences themselves. -/
theorem c1_update_decision (cp fromPaths : List (String × String)) (rt : String) :
    ((DevHtmlAssetContent.mk cp rt).update (VersionValue.devHtml ⟨fromPaths⟩)
        = UpdateOutcome.noChange ↔ cp = fromPaths)
    ∧ (cp ≠ fromPaths →
      (DevHtmlAssetContent.mk cp rt).update (VersionValue.devHtml ⟨fromPaths⟩)
        = UpdateOutcome.unsupported fromPaths cp) := by
  constructor
  · by_cases h : cp = fromPaths <;>
      simp [DevHtmlAssetContent.update, DevHtmlAssetContent.version, h]
  · intro h
    simp [DevHtmlAssetContent.update, DevHtmlAssetContent.version, h]

/-- C1 witness: on equal concrete sequences `update` is `NoChange`; on
distinct concrete sequences it is the unsupported failure. -/
theorem c1_update_witness :
    (DevHtmlAssetContent.mk [("app.js", "c1")] "rt").update
        (VersionValue.devHtml ⟨[("app.js", "c1")]⟩) = UpdateOutcome.noChange
    ∧ (DevHtmlAssetContent.mk [("app.js", "c1")] "rt").update
        (VersionValue.devHtml ⟨[]⟩) = UpdateOutcome.unsupported [] [("app.js", "c1")] :=
  ⟨(c1_update_decision [("app.js", "c1")] [("app.js", "c1")] "rt").1.mpr rfl,
   (c1_update_decision [("app.js", "c1")] [] "rt").2 (by decide)⟩

/-- C2: the claim as stated is false on the code: fingerprint equality does
not imply sequence equality, because infinitely many sequences map into
finitely many 64-bit digests. -/
theorem c2_counterexample :
    ¬ ∀ a b : List (String × String),
      (DevHtmlAssetVersion.id ⟨a⟩ = DevHtmlAssetVersion.id ⟨b⟩ ↔ a = b) := by
  intro hclaim
  obtain ⟨a, b, hne, hid⟩ := fingerprint_collision
  exact hne ((hclaim a b).mp hid)

/-- C2 (amended): equal sequences (same entries, same order, same string
contents) always yield equal fingerprints; the converse direction fails. -/
theorem c2_fingerprint_congr (a b : List (String × String)) (h : a = b) :
    DevHtmlAssetVersion.id ⟨a⟩ = DevHtmlAssetVersion.id ⟨b⟩ := by
  rw [h]

/-- C2 witness: the fingerprint of a concrete sequence equals itself. -/
theorem c2_witness :
    DevHtmlAssetVersion.id ⟨[("app.js", "c1")]⟩ = DevHtmlAssetVersion.id ⟨[("app.js", "c1")]⟩ :=
  c2_fingerprint_congr [("app.js", "c1")] [("app.js", "c1")] rfl

/-- C3: the version fingerprint is the hex encoding of the fast 64-bit hash
of, for each entry in order, the relative-path bytes followed by the chunk-id
bytes with no separators; it is a function of the chunk-path sequence alone,
and the runtime script path does not contribute to it. -/
theorem c3_version_id_oneshot (cp : List (String × String)) (rt1 rt2 : String) :
    (DevHtmlAssetContent.mk cp rt1).version.id
      = encode_hex (Xxh3Hash64Hasher.finish (Xxh3Hash64Hasher.write Xxh3Hash64Hasher.new
          ((cp.map fun e => strBytes e.1 ++ strBytes e.2).flatten)))
    ∧ (DevHtmlAssetContent.mk cp rt1).version.id = (DevHtmlAssetContent.mk cp rt2).version.id := by
  refine ⟨?_, rfl⟩
  simp [DevHtmlAssetContent.version, DevHtmlAssetVersion.id, foldl_write_eq_oneshot]

/-- C8: the claim as stated is false on the code: when the supplied previous
version is not a version produced by this content type, `update` panics via
`expect` instead of returning an explicit result. -/
theorem c8_counterexample :
    (DevHtmlAssetContent.mk [] "").update VersionValue.other
      = UpdateOutcome.panic "version must be an `DevHtmlAssetVersionVc`" := rfl

/-- C8 (amended): for every previous version that this content type produced,
`update` returns an explicit result — `NoChange` or the failure carrying both
versions' chunk sequences for diagnostics — and never panics there. -/
theorem c8_update_explicit_on_devhtml (c : DevHtmlAssetContent) (fromV : DevHtmlAssetVersion) :
    c.update (VersionValue.devHtml fromV) = UpdateOutcome.noChange
    ∨ c.update (VersionValue.devHtml fromV)
        = UpdateOutcome.unsupported fromV.chunk_paths c.chunk_paths := by
  by_cases h : c.version.chunk_paths = fromV.chunk_paths
  · left
    simp [DevHtmlAssetContent.update, h]
  · right
    simp only [DevHtmlAssetContent.version] at h
    simp [DevHtmlAssetContent.update, DevHtmlAssetContent.version, h]

/-- A successful tag collection yields exactly the script tags of the `.js`
entries and the stylesheet tags of the `.css` entries, each in input order. -/
theorem collectTags_ok (cp : List (String × String)) :
    ∀ scripts stylesheets, collectTags cp = Except.ok (scripts, stylesheets) →
      scripts = (cp.filter fun e => strEndsWith e.1 ".js").map (fun e => scriptTag e.1)
      ∧ stylesheets = (cp.filter fun e => !strEndsWith e.1 ".js" && strEndsWith e.1 ".css").map
          (fun e => stylesheetTag e.2 e.1) := by
  induction cp with
  | nil =>
    intro scripts stylesheets h
    simp [collectTags] at h
    rcases h with ⟨rfl, rfl⟩
    simp
  | cons e rest ih =>
    obtain ⟨p, cid⟩ := e
    intro scripts stylesheets h
    by_cases hjs : strEndsWith p ".js" = true
    · cases hr : collectTags rest with
      | error msg => simp [collectTags, hjs, hr] at h
      | ok pair =>
        obtain ⟨s, st⟩ := pair
        obtain ⟨hs, hst⟩ := ih s st hr
        simp [collectTags, hjs, hr] at h
        rcases h with ⟨rfl, rfl⟩
        simp [List.filter_cons, hjs, hs, hst]
    · by_cases hcss : strEndsWith p ".css" = true
      · cases hr : collectTags rest with
        | error msg => simp [collectTags, hjs, hcss, hr] at h
        | ok pair =>
          obtain ⟨s, st⟩ := pair
          obtain ⟨hs, hst⟩ := ih s st hr
          simp [collectTags, hjs, hcss, hr] at h
          rcases h with ⟨rfl, rfl⟩
          simp [List.filter_cons, hjs, hcss, hs, hst]
      · simp [collectTags, hjs, hcss] at h

/-- When every entry is `.js` or `.css`, tag collection succeeds with the
classified tags in input order. -/
theorem collectTags_ok_of_good (cp : List (String × String))
    (h : ∀ e ∈ cp, strEndsWith e.1 ".js" = true ∨ strEndsWith e.1 ".css" = true) :
    collectTags cp = Except.ok
      ((cp.filter fun e => strEndsWith e.1 ".js").map (fun e => scriptTag e.1),
       (cp.filter fun e => !strEndsWith e.1 ".js" && strEndsWith e.1 ".css").map
         (fun e => stylesheetTag e.2 e.1)) := by
  induction cp with
  | nil => simp [collectTags]
  | cons e rest ih =>
    obtain ⟨p, cid⟩ := e
    have hrest := ih fun e he => h e (List.mem_cons_of_mem _ he)
    rcases h (p, cid) (List.mem_cons_self _ _) with hjs | hcss
    · simp [collectTags, hjs, hrest, List.filter_cons]
    · by_cases hjs : strEndsWith p ".js" = true
      · simp [collectTags, hjs, hrest, List.filter_cons]
      · simp [collectTags, hjs, hcss, hrest, List.filter_cons]

/-- A sequence containing an entry that is neither `.js` nor `.css` makes tag
collection fail with the unknown-asset-type message of such an entry. -/
theorem collectTags_error_of_bad (cp : List (String × String))
    (h : ∃ e ∈ cp, strEndsWith e.1 ".js" = false ∧ strEndsWith e.1 ".css" = false) :
    ∃ p, (∃ cid, (p, cid) ∈ cp) ∧ strEndsWith p ".js" = false ∧ strEndsWith p ".css" = false
      ∧ collectTags cp = Except.error ("chunk with unknown asset type: " ++ p) := by
  induction cp with
  | nil => simp at h
  | cons e rest ih =>
    obtain ⟨p, cid⟩ := e
    by_cases hjs : strEndsWith p ".js" = true
    · have hrest : ∃ e ∈ rest, strEndsWith e.1 ".js" = false ∧ strEndsWith e.1 ".css" = false := by
        rcases h with ⟨e, he, h1, h2⟩
        rcases List.mem_cons.mp he with he1 | hm
        · rw [he1] at h1
          simp [hjs] at h1
        · exact ⟨e, hm, h1, h2⟩
      obtain ⟨q, ⟨cid2, hq⟩, h1, h2, herr⟩ := ih hrest
      exact ⟨q, ⟨cid2, List.mem_cons_of_mem _ hq⟩, h1, h2, by simp [collectTags, hjs, herr]⟩
    · by_cases hcss : strEndsWith p ".css" = true
      · have hrest : ∃ e ∈ rest, strEndsWith e.1 ".js" = false ∧ strEndsWith e.1 ".css" = false := by
          rcases h with ⟨e, he, h1, h2⟩
          rcases List.mem_cons.mp he with he1 | hm
          · rw [he1] at h2
            simp [hcss] at h2
          · exact ⟨e, hm, h1, h2⟩
        obtain ⟨q, ⟨cid2, hq⟩, h1, h2, herr⟩ := ih hrest
        exact ⟨q, ⟨cid2, List.mem_cons_of_mem _ hq⟩, h1, h2,
          by simp [collectTags, hjs, hcss, herr]⟩
      · exact ⟨p, ⟨cid, List.mem_cons_self _ _⟩, by simpa using hjs, by simpa using hcss,
          by simp [collectTags, hjs, hcss]⟩

/-- C4: every successfully generated document is exactly the HTML skeleton
whose stylesheet block is the newline-joined link tags of the `.css` entries
in input order and whose script block is the newline-joined script tags with
the runtime script tag emitted once, first, before the `.js` entries' tags in
input order. -/
theorem c4_html_document_shape (cp : List (String × String)) (rt doc : String)
    (h : (DevHtmlAssetContent.mk cp rt).content = Except.ok doc) :
    doc = htmlTemplate
      ((cp.filter fun e => !strEndsWith e.1 ".js" && strEndsWith e.1 ".css").map
        (fun e => stylesheetTag e.2 e.1))
      (scriptTag rt :: (cp.filter fun e => strEndsWith e.1 ".js").map (fun e => scriptTag e.1)) := by
  unfold DevHtmlAssetContent.content at h
  cases hr : collectTags cp with
  | error msg =>
    rw [hr] at h
    simp at h
  | ok pair =>
    obtain ⟨s, st⟩ := pair
    obtain ⟨hs, hst⟩ := collectTags_ok cp s st hr
    rw [hr] at h
    simp at h
    rw [← h, hs, hst]

/-- C4 witness: the scenario of spec §8.6 — chunks `app.js` (id `c1`) and
`app.css` (id `c2`) with the conventional runtime path produce exactly the
expected document. -/
theorem c4_witness :
    "<!DOCTYPE html>\n<html>\n<head>\n<link data-turbopack-chunk-id=\"c2\" rel=\"stylesheet\" href=\"app.css\">\n</head>\n<body>\n<div id=root></div>\n<script src=\"_turbopack/html-runtime.js\"></script>\n<script src=\"app.js\"></script>\n</body>\n</html>"
      = htmlTemplate
        (([("app.js", "c1"), ("app.css", "c2")].filter
            fun e => !strEndsWith e.1 ".js" && strEndsWith e.1 ".css").map
          (fun e => stylesheetTag e.2 e.1))
        (scriptTag "_turbopack/html-runtime.js"
          :: (([("app.js", "c1"), ("app.css", "c2")].filter
                fun e => strEndsWith e.1 ".js").map (fun e => scriptTag e.1))) :=
  c4_html_document_shape [("app.js", "c1"), ("app.css", "c2")] "_turbopack/html-runtime.js" _ rfl

/-- C7: a sequence containing an entry whose relative path ends with neither
`.js` nor `.css` makes the whole generation pass fail with the
unknown-asset-type error naming such a path; no document is produced. -/
theorem c7_unknown_asset_type_fails (cp : List (String × String)) (rt : String)
    (h : ∃ e ∈ cp, strEndsWith e.1 ".js" = false ∧ strEndsWith e.1 ".css" = false) :
    ∃ p, (∃ cid, (p, cid) ∈ cp) ∧ strEndsWith p ".js" = false ∧ strEndsWith p ".css" = false
      ∧ (DevHtmlAssetContent.mk cp rt).content
          = Except.error ("chunk with unknown asset type: " ++ p) := by
  obtain ⟨p, hp, h1, h2, herr⟩ := collectTags_error_of_bad cp h
  exact ⟨p, hp, h1, h2, by simp [DevHtmlAssetContent.content, herr]⟩

/-- C7 witness: the scenario of spec §8.7 — a chunk with relative path
`app.txt` fails the pass with the unknown-asset-type error naming it. -/
theorem c7_witness :
    ∃ p, (∃ cid, (p, cid) ∈ [("app.txt", "c1")]) ∧ strEndsWith p ".js" = false
      ∧ strEndsWith p ".css" = false
      ∧ (DevHtmlAssetContent.mk [("app.txt", "c1")] "rt").content
          = Except.error ("chunk with unknown asset type: " ++ p) :=
  c7_unknown_asset_type_fails [("app.txt", "c1")] "rt" ⟨("app.txt", "c1"), by decide⟩

/-- C10: script/stylesheet classification is a case-sensitive suffix test on
the whole relative path: a singleton generation pass succeeds exactly when
the path ends with `.js` or `.css`; a `.js` suffix yields the script
document, a `.css` suffix (and not `.js`) the stylesheet document; and the
path `app.CSS`, whose extension differs only in case, fails the pass as an
unknown asset type. -/
theorem c10_suffix_classification (p cid rt : String) :
    ((∃ doc, (DevHtmlAssetContent.mk [(p, cid)] rt).content = Except.ok doc)
      ↔ (strEndsWith p ".js" = true ∨ strEndsWith p ".css" = true))
    ∧ (strEndsWith p ".js" = true →
      (DevHtmlAssetContent.mk [(p, cid)] rt).content
        = Except.ok (htmlTemplate [] [scriptTag rt, scriptTag p]))
    ∧ (strEndsWith p ".js" = false → strEndsWith p ".css" = true →
      (DevHtmlAssetContent.mk [(p, cid)] rt).content
        = Except.ok (htmlTemplate [stylesheetTag cid p] [scriptTag rt]))
    ∧ (DevHtmlAssetContent.mk [("app.CSS", cid)] rt).content
      = Except.error ("chunk with unknown asset type: " ++ "app.CSS") := by
  refine ⟨⟨?_, ?_⟩, ?_, ?_, ?_⟩
  · rintro ⟨doc, hdoc⟩
    by_contra hcon
    push_neg at hcon
    obtain ⟨hjs, hcss⟩ := hcon
    simp [DevHtmlAssetContent.content, collectTags, hjs, hcss] at hdoc
  · rintro (hjs | hcss)
    · exact ⟨htmlTemplate [] [scriptTag rt, scriptTag p],
        by simp [DevHtmlAssetContent.content, collectTags, hjs]⟩
    · by_cases hjs : strEndsWith p ".js" = true
      · exact ⟨htmlTemplate [] [scriptTag rt, scriptTag p],
          by simp [DevHtmlAssetContent.content, collectTags, hjs]⟩
      · exact ⟨htmlTemplate [stylesheetTag cid p] [scriptTag rt],
          by simp [DevHtmlAssetContent.content, collectTags, hjs, hcss]⟩
  · intro hjs
    simp [DevHtmlAssetContent.content, collectTags, hjs]
  · intro hjs hcss
    simp [DevHtmlAssetContent.content, collectTags, hjs, hcss]
  · have h1 : strEndsWith "app.CSS" ".js" = false := rfl
    have h2 : strEndsWith "app.CSS" ".css" = false := rfl
    simp [DevHtmlAssetContent.content, collectTags, h1, h2]

/-- C10 witness: a concrete `.js` chunk is emitted as the script document. -/
theorem c10_witness :
    (DevHtmlAssetContent.mk [("x.js", "c")] "rt").content
      = Except.ok (htmlTemplate [] [scriptTag "rt", scriptTag "x.js"]) :=
  (c10_suffix_classification "x.js" "c" "rt").2.1 rfl

/-- Rebuilding a string from its character data gives the string back. -/
theorem string_mk_data (s : String) : String.mk s.data = s := by
  cases s
  rfl

/-- Appending strings appends their character data. -/
theorem string_data_append (a b : String) : (a ++ b).data = a.data ++ b.data := by
  cases a
  cases b
  rfl

/-- Consuming an exact leading sequence leaves the remainder. -/
theorem dropExact_append (a l : List Char) : dropExact a (a ++ l) = some l := by
  induction a with
  | nil => rfl
  | cons c as ih => simp [dropExact, ih]

/-- Removing an exact trailing sequence leaves what precedes it. -/
theorem removeSuffix_append (post l : List Char) : removeSuffix post (l ++ post) = some l := by
  simp [removeSuffix, List.reverse_append, dropExact_append]

/-- Unescaping undoes escaping character by character. -/
theorem unescape_flatMap (l : List Char) : unescapeChars (l.flatMap escapeChar) = some l := by
  induction l with
  | nil => rfl
  | cons c rest ih =>
    rw [List.flatMap_cons]
    by_cases hq : c = '"'
    · subst hq
      rw [show escapeChar '"' = ['\\', '"'] from rfl]
      rw [show (['\\', '"'] ++ rest.flatMap escapeChar)
          = '\\' :: '"' :: rest.flatMap escapeChar from rfl]
      rw [unescapeChars]
      simp [ih]
    · by_cases hb : c = '\\'
      · subst hb
        rw [show escapeChar '\\' = ['\\', '\\'] from rfl]
        rw [show (['\\', '\\'] ++ rest.flatMap escapeChar)
            = '\\' :: '\\' :: rest.flatMap escapeChar from rfl]
        rw [unescapeChars]
        simp [ih]
      · rw [show escapeChar c = [c] from by simp [escapeChar, hq, hb]]
        rw [show ([c] ++ rest.flatMap escapeChar) = c :: rest.flatMap escapeChar from rfl]
        rw [unescapeChars.eq_def]
        simp [hq, hb, ih]

/-- A stringified literal denotes exactly the original string. -/
theorem decode_stringify (s : String) :
    decodeStringLit (stringify_str s).data = some s.data := by
  show decodeStringLit ('"' :: (s.data.flatMap escapeChar ++ ['"'])) = some s.data
  rw [decodeStringLit]
  rw [show dropExact ['"'] ('"' :: (s.data.flatMap escapeChar ++ ['"']))
      = some (s.data.flatMap escapeChar ++ ['"']) from rfl]
  simp only [Option.some_bind]
  rw [removeSuffix_append]
  simp only [Option.some_bind]
  exact unescape_flatMap _

/-- The emitted export statement denotes exactly the stringified value. -/
theorem exportedValue_roundtrip (s : String) :
    exportedValue ("__turbopack_export_value__(" ++ stringify_str s ++ ");") = some s := by
  rw [exportedValue]
  rw [show ("__turbopack_export_value__(" ++ stringify_str s ++ ");").data
      = "__turbopack_export_value__(".data ++ ((stringify_str s).data ++ ");".data) from by
    rw [string_data_append, string_data_append, List.append_assoc]]
  rw [dropExact_append]
  simp only [Option.some_bind]
  rw [removeSuffix_append]
  simp only [Option.some_bind]
  rw [decode_stringify]
  simp only [Option.some_bind]

/-- C5: static asset resolution fails with the unsupported-content error
exactly when the source content is not a materialized byte buffer; otherwise
it returns the base-16 content hash with the source path's extension as a
suffix when there is one, the hash being computed over the bytes only, never
over the path. -/
theorem c5_static_asset_path (source_path : String) (c : FileContent) :
    ((∀ b, c ≠ FileContent.Content b) →
      StaticAsset.path source_path c = Except.error "StaticAsset::path: unsupported file content")
    ∧ (∀ b, c = FileContent.Content b →
      StaticAsset.path source_path c = Except.ok
        (match extension source_path with
          | some e => encode_base16 (hash_md4 b) ++ "." ++ e
          | none => encode_base16 (hash_md4 b))) := by
  constructor
  · intro h
    cases c with
    | Content b => exact absurd rfl (h b)
    | NotFound => rfl
  · intro b hb
    subst hb
    cases hext : extension source_path <;> simp [StaticAsset.path, hext]

/-- C5 witness: unavailable content fails; concrete bytes under `a.png`
resolve to the content hash suffixed with `.png`. -/
theorem c5_witness :
    StaticAsset.path "a.png" FileContent.NotFound
        = Except.error "StaticAsset::path: unsupported file content"
    ∧ StaticAsset.path "a.png" (FileContent.Content [1, 2, 3])
        = Except.ok (encode_base16 (hash_md4 [1, 2, 3]) ++ "." ++ "png") :=
  ⟨(c5_static_asset_path "a.png" FileContent.NotFound).1 (fun b h => by cases h),
   ((c5_static_asset_path "a.png" (FileContent.Content [1, 2, 3])).2 [1, 2, 3] rfl).trans rfl⟩

/-- C6: the claim as stated is false on the code: resolving the same bytes
under a different original path does not always yield the identical output
path — a different extension changes the cosmetic suffix although the
content is unchanged. -/
theorem c6_counterexample :
    StaticAsset.path "a.png" (FileContent.Content [1, 2, 3])
      ≠ StaticAsset.path "b.jpg" (FileContent.Content [1, 2, 3]) := by
  intro h
  exact absurd (Except.ok.inj h) (by decide)

/-- C6 (amended): the output path is determined by the byte content and the
source path's extension alone — same bytes under two source paths with the
same extension resolve to the identical output path; the hash itself never
covers the path. -/
theorem c6_output_path_content_and_ext (p1 p2 : String) (b : List Nat)
    (h : extension p1 = extension p2) :
    StaticAsset.path p1 (FileContent.Content b) = StaticAsset.path p2 (FileContent.Content b) := by
  simp [StaticAsset.path, h]

/-- C6 witness: the same bytes under two different paths with the same
extension resolve identically. -/
theorem c6_witness :
    StaticAsset.path "dir/a.png" (FileContent.Content [5])
      = StaticAsset.path "other/b.png" (FileContent.Content [5]) :=
  c6_output_path_content_and_ext "dir/a.png" "other/b.png" [5] rfl

/-- C9: for every successfully resolved static asset, the emitted chunk-item
code is the single export statement whose exported value denotes exactly the
string `/` followed by the output path. -/
theorem c9_export_single_value (source_path : String) (c : FileContent) (output_path : String)
    (h : StaticAsset.path source_path c = Except.ok output_path) :
    ModuleChunkItem.content source_path c
      = Except.ok ("__turbopack_export_value__(" ++ stringify_str ("/" ++ output_path) ++ ");")
    ∧ ∀ code, ModuleChunkItem.content source_path c = Except.ok code →
        exportedValue code = some ("/" ++ output_path) := by
  have hc : ModuleChunkItem.content source_path c
      = Except.ok ("__turbopack_export_value__(" ++ stringify_str ("/" ++ output_path) ++ ");") := by
    simp [ModuleChunkItem.content, h]
  refine ⟨hc, ?_⟩
  intro code hcode
  rw [hc] at hcode
  have hcd : code = "__turbopack_export_value__(" ++ stringify_str ("/" ++ output_path) ++ ");" :=
    (Except.ok.inj hcode).symm
  rw [hcd, exportedValue_roundtrip]

/-- C9 witness: a concrete resolved asset's emitted code exports exactly the
slash-prefixed output path. -/
theorem c9_witness :
    ModuleChunkItem.content "a" (FileContent.Content [])
      = Except.ok ("__turbopack_export_value__("
          ++ stringify_str ("/" ++ encode_base16 (hash_md4 [])) ++ ");")
    ∧ ∀ code, ModuleChunkItem.content "a" (FileContent.Content []) = Except.ok code →
        exportedValue code = some ("/" ++ encode_base16 (hash_md4 [])) :=
  c9_export_single_value "a" (FileContent.Content []) (encode_base16 (hash_md4 [])) rfl
